import Mathlib

/-!
Verification of the gmail-cli core against its natural-language design.

The development shallowly embeds the two core subsystems of the repository:

* `src/gmail_cli/auth.py` — credential lifecycle (`authenticate`,
  `revoke_credentials`), modelled as pure functions over an explicit
  environment that carries the token-file contents, the parse outcome of the
  third-party credential parser, and the outcomes of the remote refresh /
  revoke / interactive-flow calls.
* `src/gmail_cli/gmail_client.py` — message codec and mailbox operations
  (`_extract_body`, `_extract_attachments`, `get_message_content`,
  `send_message`, `list_messages`, `get_message`, `delete_message`,
  `search_messages`), with byte strings as `List Nat` and the base64-url
  codec of Python's `base64.urlsafe_b64encode/urlsafe_b64decode` implemented
  concretely.

Remote calls are represented as `Except String` valued parameters: `.error e`
is the library raising an exception with description `e`.
-/

namespace GmailCli

/-- Sextet value (0..63) to the ASCII byte of the url-safe base64 alphabet
`A-Z a-z 0-9 - _`, as used by Python's `base64.urlsafe_b64encode`. -/
def b64Char (n : Nat) : Nat :=
  if n < 26 then 65 + n
  else if n < 52 then 97 + (n - 26)
  else if n < 62 then 48 + (n - 52)
  else if n = 62 then 45
  else 95

/-- ASCII byte of a url-safe base64 alphabet character back to its sextet
value, inverse of `b64Char` on the alphabet. -/
def b64Val (c : Nat) : Nat :=
  if 65 ≤ c ∧ c ≤ 90 then c - 65
  else if 97 ≤ c ∧ c ≤ 122 then 26 + (c - 97)
  else if 48 ≤ c ∧ c ≤ 57 then 52 + (c - 48)
  else if c = 45 then 62
  else if c = 95 then 63
  else 0

/-- ASCII code of the base64 padding character `=`. -/
def padByte : Nat := 61

/-- Python `base64.urlsafe_b64encode`: bytes to base64url characters (as
ASCII bytes), padded with `=` to a multiple of four. -/
def urlsafe_b64encode : List Nat → List Nat
  | [] => []
  | [a] => [b64Char (a / 4), b64Char (a % 4 * 16), padByte, padByte]
  | [a, b] => [b64Char (a / 4), b64Char (a % 4 * 16 + b / 16), b64Char (b % 16 * 4), padByte]
  | a :: b :: c :: rest =>
      b64Char (a / 4) :: b64Char (a % 4 * 16 + b / 16) ::
      b64Char (b % 16 * 4 + c / 64) :: b64Char (c % 64) :: urlsafe_b64encode rest

/-- Python `base64.urlsafe_b64decode` on well-padded input: four characters
at a time, the amount of padding deciding how many bytes the final quantum
contributes. -/
def urlsafe_b64decode : List Nat → List Nat
  | c1 :: c2 :: c3 :: c4 :: rest =>
      if c3 = padByte then
        [b64Val c1 * 4 + b64Val c2 / 16]
      else if c4 = padByte then
        [b64Val c1 * 4 + b64Val c2 / 16, b64Val c2 % 16 * 16 + b64Val c3 / 4]
      else
        (b64Val c1 * 4 + b64Val c2 / 16) :: (b64Val c2 % 16 * 16 + b64Val c3 / 4) ::
        (b64Val c3 % 4 * 64 + b64Val c4) :: urlsafe_b64decode rest
  | _ => []

theorem b64Val_b64Char : ∀ x : Nat, x < 64 → b64Val (b64Char x) = x := by decide

theorem b64Char_ne_pad : ∀ x : Nat, x < 64 → b64Char x ≠ padByte := by decide

theorem urlsafe_b64decode_encode :
    ∀ l : List Nat, (∀ x ∈ l, x < 256) → urlsafe_b64decode (urlsafe_b64encode l) = l
  | [], _ => rfl
  | [a], h => by
      have ha : a < 256 := h a (by simp)
      simp only [urlsafe_b64encode, urlsafe_b64decode]
      rw [if_pos True.intro]
      rw [b64Val_b64Char (a / 4) (by omega), b64Val_b64Char (a % 4 * 16) (by omega)]
      simp only [List.cons.injEq]
      refine ⟨by omega, by trivial⟩
  | [a, b], h => by
      have ha : a < 256 := h a (by simp)
      have hb : b < 256 := h b (by simp)
      have h3 : b64Char (b % 16 * 4) ≠ padByte := b64Char_ne_pad _ (by omega)
      simp only [urlsafe_b64encode, urlsafe_b64decode]
      rw [if_neg h3, if_pos True.intro]
      rw [b64Val_b64Char (a / 4) (by omega), b64Val_b64Char (a % 4 * 16 + b / 16) (by omega),
        b64Val_b64Char (b % 16 * 4) (by omega)]
      simp only [List.cons.injEq]
      refine ⟨by omega, by omega, by trivial⟩
  | [a, b, c], h => by
      have ha : a < 256 := h a (by simp)
      have hb : b < 256 := h b (by simp)
      have hc : c < 256 := h c (by simp)
      have h3 : b64Char (b % 16 * 4 + c / 64) ≠ padByte := b64Char_ne_pad _ (by omega)
      have h4 : b64Char (c % 64) ≠ padByte := b64Char_ne_pad _ (by omega)
      simp only [urlsafe_b64encode, urlsafe_b64decode]
      rw [if_neg h3, if_neg h4]
      rw [b64Val_b64Char (a / 4) (by omega), b64Val_b64Char (a % 4 * 16 + b / 16) (by omega),
        b64Val_b64Char (b % 16 * 4 + c / 64) (by omega), b64Val_b64Char (c % 64) (by omega)]
      simp only [List.cons.injEq]
      refine ⟨by omega, by omega, by omega, by trivial⟩
  | a :: b :: c :: d :: rest, h => by
      have ha : a < 256 := h a (by simp)
      have hb : b < 256 := h b (by simp)
      have hc : c < 256 := h c (by simp)
      have hrest : ∀ x ∈ d :: rest, x < 256 := by
        intro x hx
        exact h x (by simp [hx])
      have h3 : b64Char (b % 16 * 4 + c / 64) ≠ padByte := b64Char_ne_pad _ (by omega)
      have h4 : b64Char (c % 64) ≠ padByte := b64Char_ne_pad _ (by omega)
      simp only [urlsafe_b64encode, urlsafe_b64decode]
      rw [if_neg h3, if_neg h4]
      rw [b64Val_b64Char (a / 4) (by omega), b64Val_b64Char (a % 4 * 16 + b / 16) (by omega),
        b64Val_b64Char (b % 16 * 4 + c / 64) (by omega), b64Val_b64Char (c % 64) (by omega)]
      simp only [List.cons.injEq]
      refine ⟨by omega, by omega, by omega, urlsafe_b64decode_encode (d :: rest) hrest⟩

theorem urlsafe_b64encode_eq_nil :
    ∀ l : List Nat, urlsafe_b64encode l = [] → l = []
  | [], _ => rfl
  | [_], h => by simp [urlsafe_b64encode] at h
  | [_, _], h => by simp [urlsafe_b64encode] at h
  | _ :: _ :: _ :: _, h => by simp [urlsafe_b64encode] at h

/-- The `body` object of a Gmail payload part: `data` is the base64url text
(as ASCII bytes); `part['body'].get('data', '')` yields `[]` when absent. -/
structure PartBody where
  data : Option (List Nat)
  size : Nat
  attachmentId : Option String
deriving DecidableEq

/-- One immediate part of a Gmail message payload. `filename` is `""` when
the part carries no filename (Python's falsy `part.get('filename')`). -/
structure Part where
  mimeType : String
  filename : String
  body : PartBody
deriving DecidableEq

/-- A Gmail message payload: `parts = none` models a payload without a
`'parts'` key; headers are name/value pairs. -/
structure Payload where
  parts : Option (List Part)
  mimeType : String
  body : PartBody
  headers : List (String × String)
deriving DecidableEq

/-- A Gmail message object as consumed by `get_message_content`. -/
structure Message where
  id : String
  threadId : String
  payload : Payload
  labelIds : List String
deriving DecidableEq

/-- `part['body'].get('data', '')`: the base64url text of a part, `[]` when
the `data` field is absent. -/
def partData (p : Part) : List Nat := p.body.data.getD []

/-- The `for part in payload['parts']` loop of `_extract_body`: a
`text/plain` part with data sets the body and breaks; a `text/html` part
with data sets the body only when it is still empty and keeps scanning. -/
def extract_body_loop : List Part → List Nat → List Nat
  | [], body => body
  | p :: rest, body =>
      if p.mimeType = "text/plain" then
        if partData p ≠ [] then urlsafe_b64decode (partData p)
        else extract_body_loop rest body
      else if p.mimeType = "text/html" ∧ body = [] then
        if partData p ≠ [] then extract_body_loop rest (urlsafe_b64decode (partData p))
        else extract_body_loop rest body
      else extract_body_loop rest body

/-- `GmailClient._extract_body`: scan the immediate parts when present,
otherwise use the payload's own body when it is `text/plain`. -/
def extract_body (payload : Payload) : List Nat :=
  match payload.parts with
  | some ps => extract_body_loop ps []
  | none =>
      if payload.mimeType = "text/plain" then
        if payload.body.data.getD [] ≠ [] then urlsafe_b64decode (payload.body.data.getD [])
        else []
      else []

/-- One attachment descriptor of the decoded content record. -/
structure AttachmentInfo where
  filename : String
  mime_type : String
  size : Nat
  attachment_id : Option String
deriving DecidableEq

/-- `GmailClient._extract_attachments`: every immediate part with a truthy
filename becomes an attachment descriptor. -/
def extract_attachments (payload : Payload) : List AttachmentInfo :=
  match payload.parts with
  | some ps =>
      (ps.filter (fun p => p.filename ≠ "")).map
        (fun p => ⟨p.filename, p.mimeType, p.body.size, p.body.attachmentId⟩)
  | none => []

/-- Python `str.lower()` on a header name, character by character. -/
def lowerName (s : String) : String := String.mk (s.data.map Char.toLower)

/-- The header dictionary of `get_message_content`: names are lowercased and
a later header with the same lowercased name overwrites an earlier one. -/
def headerLookup : List (String × String) → String → Option String
  | [], _ => none
  | (n, v) :: rest, k =>
      match headerLookup rest k with
      | some r => some r
      | none => if lowerName n = k then some v else none

/-- The decoded content record returned by `get_message_content`. -/
structure ContentRecord where
  id : String
  threadId : String
  subject : String
  fromAddr : String
  toAddr : String
  date : String
  body : List Nat
  attachments : List AttachmentInfo
  labels : List String
deriving DecidableEq

/-- `GmailClient.get_message_content`: flatten a Gmail message into a
content record, defaulting absent headers. -/
def get_message_content (m : Message) : ContentRecord where
  id := m.id
  threadId := m.threadId
  subject := (headerLookup m.payload.headers "subject").getD "No Subject"
  fromAddr := (headerLookup m.payload.headers "from").getD "Unknown"
  toAddr := (headerLookup m.payload.headers "to").getD "Unknown"
  date := (headerLookup m.payload.headers "date").getD "Unknown"
  body := extract_body m.payload
  attachments := extract_attachments m.payload
  labels := m.labelIds

theorem extract_body_loop_plain :
    ∀ (pre : List Part) (p : Part) (rest : List Part) (b : List Nat),
      (∀ q ∈ pre, ¬(q.mimeType = "text/plain" ∧ partData q ≠ [])) →
      p.mimeType = "text/plain" → partData p ≠ [] →
      extract_body_loop (pre ++ p :: rest) b = urlsafe_b64decode (partData p)
  | [], p, rest, b, _, hp, hd => by
      simp [extract_body_loop, hp, hd]
  | q :: pre, p, rest, b, hpre, hp, hd => by
      have hq : ¬(q.mimeType = "text/plain" ∧ partData q ≠ []) := hpre q (by simp)
      have hpre2 : ∀ x ∈ pre, ¬(x.mimeType = "text/plain" ∧ partData x ≠ []) := by
        intro x hx
        exact hpre x (by simp [hx])
      simp only [List.cons_append, extract_body_loop]
      by_cases h1 : q.mimeType = "text/plain"
      · have hqd : ¬(partData q ≠ []) := fun hc => hq ⟨h1, hc⟩
        rw [if_pos h1, if_neg hqd]
        exact extract_body_loop_plain pre p rest b hpre2 hp hd
      · rw [if_neg h1]
        by_cases h2 : q.mimeType = "text/html" ∧ b = []
        · rw [if_pos h2]
          by_cases h3 : partData q ≠ []
          · rw [if_pos h3]
            exact extract_body_loop_plain pre p rest _ hpre2 hp hd
          · rw [if_neg h3]
            exact extract_body_loop_plain pre p rest b hpre2 hp hd
        · rw [if_neg h2]
          exact extract_body_loop_plain pre p rest b hpre2 hp hd

theorem extract_body_loop_skip_nodata :
    ∀ (pre tail : List Part) (p : Part) (b : List Nat), partData p = [] →
      extract_body_loop (pre ++ p :: tail) b = extract_body_loop (pre ++ tail) b
  | [], tail, p, b, hp => by
      simp only [List.nil_append, extract_body_loop]
      by_cases h1 : p.mimeType = "text/plain"
      · simp [h1, hp]
      · by_cases h2 : p.mimeType = "text/html" ∧ b = []
        · simp [h1, h2, hp]
        · simp [h1, h2]
  | q :: pre, tail, p, b, hp => by
      simp only [List.cons_append, extract_body_loop]
      by_cases h1 : q.mimeType = "text/plain"
      · by_cases hqd : partData q ≠ []
        · rw [if_pos h1, if_pos hqd, if_pos h1, if_pos hqd]
        · rw [if_pos h1, if_neg hqd, if_pos h1, if_neg hqd]
          exact extract_body_loop_skip_nodata pre tail p b hp
      · rw [if_neg h1, if_neg h1]
        by_cases h2 : q.mimeType = "text/html" ∧ b = []
        · rw [if_pos h2, if_pos h2]
          by_cases h3 : partData q ≠ []
          · rw [if_pos h3, if_pos h3]
            exact extract_body_loop_skip_nodata pre tail p _ hp
          · rw [if_neg h3, if_neg h3]
            exact extract_body_loop_skip_nodata pre tail p b hp
        · rw [if_neg h2, if_neg h2]
          exact extract_body_loop_skip_nodata pre tail p b hp

/-- Counterexample part for claim C2: a `text/html` part carrying data. -/
def htmlPartC2 : Part := ⟨"text/html", "", ⟨some (urlsafe_b64encode [104, 105]), 0, none⟩⟩

/-- Counterexample part for claim C2: a `text/plain` part with no body data. -/
def plainPartC2 : Part := ⟨"text/plain", "", ⟨none, 0, none⟩⟩

/-- Counterexample payload for claim C2: a `text/html` part followed by a
`text/plain` part. -/
def payloadC2 : Payload :=
  ⟨some [htmlPartC2, plainPartC2], "multipart/alternative", ⟨none, 0, none⟩, []⟩

/-- Claim C2, counterexample: for the payload whose immediate parts are a
`text/html` part with data followed by a `text/plain` part with no body
data, `_extract_body` keeps the html content instead of the plain part's
(empty) decoded content, so a later `text/plain` part does not always
override an earlier html fallback. -/
theorem claim_C2_counterexample :
    payloadC2.parts = some [htmlPartC2, plainPartC2] ∧
    htmlPartC2.mimeType = "text/html" ∧ plainPartC2.mimeType = "text/plain" ∧
    extract_body payloadC2 ≠ urlsafe_b64decode (partData plainPartC2) := by
  refine ⟨rfl, rfl, rfl, ?_⟩
  decide

/-- Claim C2 (amended): for every payload whose immediate parts contain a
`text/html` part followed later by a `text/plain` part with non-empty body
data, and no `text/plain` part with non-empty data before it, the decoded
body equals that `text/plain` part's decoded content — the plain part
overrides the earlier html fallback. -/
theorem claim_C2_amended (l1 l2 l3 : List Part) (h p : Part) (mt : String)
    (bd : PartBody) (hdrs : List (String × String))
    (hh : h.mimeType = "text/html") (hp : p.mimeType = "text/plain")
    (hd : partData p ≠ [])
    (hpre : ∀ q ∈ l1 ++ h :: l2, ¬(q.mimeType = "text/plain" ∧ partData q ≠ [])) :
    extract_body ⟨some (l1 ++ h :: l2 ++ p :: l3), mt, bd, hdrs⟩ =
      urlsafe_b64decode (partData p) := by
  have hsplit : l1 ++ h :: l2 ++ p :: l3 = (l1 ++ h :: l2) ++ p :: l3 := by simp
  simp only [extract_body, hsplit]
  exact extract_body_loop_plain (l1 ++ h :: l2) p l3 [] hpre hp hd

/-- Witness part for claim C2: a `text/plain` part with data. -/
def plainPartW : Part := ⟨"text/plain", "", ⟨some (urlsafe_b64encode [72, 105]), 0, none⟩⟩

/-- Claim C2 witness: the amended theorem applied to a concrete html-then-
plain payload, where the plain content `[72, 105]` wins. -/
theorem claim_C2_witness :
    (htmlPartC2.mimeType = "text/html" ∧ plainPartW.mimeType = "text/plain" ∧
      partData plainPartW ≠ [] ∧
      (∀ q ∈ [] ++ htmlPartC2 :: [], ¬(q.mimeType = "text/plain" ∧ partData q ≠ []))) ∧
    extract_body ⟨some ([] ++ htmlPartC2 :: [] ++ plainPartW :: []),
        "multipart/alternative", ⟨none, 0, none⟩, []⟩ =
      urlsafe_b64decode (partData plainPartW) :=
  ⟨⟨rfl, rfl, by decide, by decide⟩,
    claim_C2_amended [] [] [] htmlPartC2 plainPartW "multipart/alternative"
      ⟨none, 0, none⟩ [] rfl rfl (by decide) (by decide)⟩

/-- Claim C8: a part with no body data contributes nothing to the decoded
body — removing it from the immediate parts leaves `_extract_body`
unchanged — and a payload consisting only of such a part decodes to the
empty byte string (the `body` field of the record is always a string, `[]`
here, never an absent value). -/
theorem claim_C8 (l1 l2 : List Part) (p : Part) (mt : String) (bd : PartBody)
    (hdrs : List (String × String)) (hp : partData p = []) :
    extract_body ⟨some (l1 ++ p :: l2), mt, bd, hdrs⟩ =
      extract_body ⟨some (l1 ++ l2), mt, bd, hdrs⟩ ∧
    extract_body ⟨some [p], mt, bd, hdrs⟩ = [] := by
  constructor
  · simp only [extract_body]
    exact extract_body_loop_skip_nodata l1 l2 p [] hp
  · simp only [extract_body]
    have h1 : extract_body_loop ([] ++ p :: []) [] = extract_body_loop ([] ++ []) [] :=
      extract_body_loop_skip_nodata [] [] p [] hp
    simpa [extract_body_loop] using h1

/-- Witness part for claim C8: a part without body data. -/
def nodataPartC8 : Part := ⟨"text/plain", "", ⟨none, 7, none⟩⟩

/-- Claim C8 witness: the theorem applied to a concrete no-data part placed
between two html parts. -/
theorem claim_C8_witness :
    partData nodataPartC8 = [] ∧
    (extract_body ⟨some ([htmlPartC2] ++ nodataPartC8 :: [htmlPartC2]),
        "multipart/mixed", ⟨none, 0, none⟩, []⟩ =
      extract_body ⟨some ([htmlPartC2] ++ [htmlPartC2]),
        "multipart/mixed", ⟨none, 0, none⟩, []⟩ ∧
    extract_body ⟨some [nodataPartC8], "multipart/mixed", ⟨none, 0, none⟩, []⟩ = []) :=
  ⟨by decide,
    claim_C8 [htmlPartC2] [htmlPartC2] nodataPartC8 "multipart/mixed"
      ⟨none, 0, none⟩ [] (by decide)⟩

/-- Local filesystem as seen by `send_message`: the association of existing
paths to their byte contents. -/
structure FileSys where
  files : List (String × List Nat)

/-- Python `os.path.exists`. -/
def FileSys.pathExists (fs : FileSys) (p : String) : Bool :=
  (fs.files.lookup p).isSome

/-- Python `open(path, "rb").read()` for a path of the filesystem. -/
def FileSys.readBytes (fs : FileSys) (p : String) : List Nat :=
  (fs.files.lookup p).getD []

/-- Python `os.path.basename`: the component after the last slash. -/
def basename (p : String) : String :=
  (p.splitOn "/").getLastD ""

/-- The arguments of `GmailClient.send_message`: recipient, subject, body
bytes, optional cc/bcc header values and attachment paths. -/
structure CompositionRequest where
  toAddr : String
  subject : String
  body : List Nat
  cc : Option String
  bcc : Option String
  attachments : List String

/-- An optional header of the composed message: Python adds `cc`/`bcc` only
when the value is truthy (present and non-empty). -/
def opt_header (nm : String) : Option String → List (String × String)
  | some s => if s ≠ "" then [(nm, s)] else []
  | none => []

/-- The `MIMEText(body, 'plain')` part of the composed message, as the
remote service reports it back: `text/plain` with base64url data. -/
def text_part (body : List Nat) : Part :=
  ⟨"text/plain", "", ⟨some (urlsafe_b64encode body), body.length, none⟩⟩

/-- One attachment part of the composed message: `MIMEBase('application',
'octet-stream')` with the file's bytes base64-encoded and the path's base
name as filename. -/
def attachment_part (fs : FileSys) (path : String) : Part :=
  ⟨"application/octet-stream", basename path,
    ⟨some (urlsafe_b64encode (fs.readBytes path)), (fs.readBytes path).length, none⟩⟩

/-- The multipart envelope composed by `send_message` lines 166-196: `to`
and `subject` headers plus optional `cc`/`bcc`, one plain-text body part
first, then one part per attachment path that exists on disk (paths that do
not exist are skipped by the `os.path.exists` guard). -/
def compose_message (fs : FileSys) (req : CompositionRequest) : Payload :=
  ⟨some (text_part req.body ::
      (req.attachments.filter (fun p => fs.pathExists p)).map (attachment_part fs)),
    "multipart/mixed", ⟨none, 0, none⟩,
    [("to", req.toAddr), ("subject", req.subject)] ++
      opt_header "cc" req.cc ++ opt_header "bcc" req.bcc⟩

/-- `GmailClient.send_message`: compose the envelope, hand it to the remote
send call, return `True` on success and `False` when the call raises. -/
def send_message (fs : FileSys) (req : CompositionRequest)
    (remoteSend : Payload → Except String String) : Bool :=
  match remoteSend (compose_message fs req) with
  | .ok _ => true
  | .error _ => false

/-- A message stub as returned by the remote list call. -/
structure MessageStub where
  id : String
  threadId : String
deriving DecidableEq

/-- The remote list response: `results.get('messages', [])` defaults an
absent `messages` key to the empty list. -/
structure RemoteListResult where
  messages : Option (List MessageStub)

/-- `GmailClient.list_messages`: one remote list call; on success the
stubs (defaulting an absent key to `[]`) and no diagnostic, on a raised
remote failure the empty list plus the printed diagnostic. -/
def list_messages
    (svc : String → Nat → Option (List String) → Except String RemoteListResult)
    (query : String) (max_results : Nat) (label_ids : Option (List String)) :
    List MessageStub × Option String :=
  match svc query max_results label_ids with
  | .ok results => (results.messages.getD [], none)
  | .error e => ([], some ("❌ Error listing messages: " ++ e))

/-- `GmailClient.get_message`: the full message on success, `none` plus the
printed diagnostic when the remote call raises. -/
def get_message (svc : String → Except String Message) (message_id : String) :
    Option Message × Option String :=
  match svc message_id with
  | .ok m => (some m, none)
  | .error e => (none, some ("❌ Error getting message: " ++ e))

/-- `GmailClient.delete_message`: `True` on success, `False` plus the
printed diagnostic when the remote call raises. -/
def delete_message (svc : String → Except String Unit) (message_id : String) :
    Bool × Option String :=
  match svc message_id with
  | .ok _ => (true, none)
  | .error e => (false, some ("❌ Error deleting message: " ++ e))

/-- `GmailClient.search_messages`: delegates to `list_messages` with the
query and max results and the default (absent) label filter. -/
def search_messages
    (svc : String → Nat → Option (List String) → Except String RemoteListResult)
    (query : String) (max_results : Nat) : List MessageStub × Option String :=
  list_messages svc query max_results none

/-- Claim C10: `search_messages` is extensionally equal to `list_messages`
with the same query and max-results and no label filter. -/
theorem claim_C10
    (svc : String → Nat → Option (List String) → Except String RemoteListResult)
    (query : String) (max_results : Nat) :
    search_messages svc query max_results = list_messages svc query max_results none :=
  rfl

/-- Claim C9: when the remote call raises, `list_messages`, `get_message`
and `delete_message` catch the failure and return the reported failure
value (`[]`, `none`, `False`) together with a diagnostic that preserves the
original failure description. -/
theorem claim_C9
    (svcL : String → Nat → Option (List String) → Except String RemoteListResult)
    (svcG : String → Except String Message) (svcD : String → Except String Unit)
    (q : String) (n : Nat) (lb : Option (List String)) (mid mid2 : String)
    (e1 e2 e3 : String)
    (hL : svcL q n lb = .error e1) (hG : svcG mid = .error e2)
    (hD : svcD mid2 = .error e3) :
    list_messages svcL q n lb = ([], some ("❌ Error listing messages: " ++ e1)) ∧
    get_message svcG mid = (none, some ("❌ Error getting message: " ++ e2)) ∧
    delete_message svcD mid2 = (false, some ("❌ Error deleting message: " ++ e3)) := by
  refine ⟨?_, ?_, ?_⟩
  · simp [list_messages, hL]
  · simp [get_message, hG]
  · simp [delete_message, hD]

/-- Claim C9 witness: the theorem applied to remote calls that raise the
concrete description `boom`. -/
theorem claim_C9_witness :
    list_messages (fun _ _ _ => .error "boom") "is:unread" 5 none =
      ([], some ("❌ Error listing messages: " ++ "boom")) ∧
    get_message (fun _ => .error "boom") "m1" =
      (none, some ("❌ Error getting message: " ++ "boom")) ∧
    delete_message (fun _ => .error "boom") "m1" =
      (false, some ("❌ Error deleting message: " ++ "boom")) :=
  claim_C9 (fun _ _ _ => .error "boom") (fun _ => .error "boom")
    (fun _ => .error "boom") "is:unread" 5 none "m1" "m1" "boom" "boom" "boom"
    rfl rfl rfl

/-- Claim C7: the envelope composed by `send_message` holds exactly one
attachment part per attachment path that exists on disk — missing paths are
skipped, not an error — and the send still reports success when the remote
call succeeds. -/
theorem claim_C7 (fs : FileSys) (req : CompositionRequest) (r : String) :
    ((compose_message fs req).parts.getD []).length =
      1 + (req.attachments.filter (fun p => fs.pathExists p)).length ∧
    ((compose_message fs req).parts.getD []).drop 1 =
      (req.attachments.filter (fun p => fs.pathExists p)).map (attachment_part fs) ∧
    send_message fs req (fun _ => Except.ok r) = true := by
  refine ⟨?_, rfl, rfl⟩
  simp [compose_message, Nat.add_comm]

theorem headerLookup_append_right_none (xs ys : List (String × String)) (k : String)
    (h : headerLookup ys k = none) :
    headerLookup (xs ++ ys) k = headerLookup xs k := by
  induction xs with
  | nil => simpa using h
  | cons p xs ih =>
      obtain ⟨n, v⟩ := p
      simp only [List.cons_append, headerLookup, List.append_eq, ih]

theorem headerLookup_opt_header_ne (nm k : String) (o : Option String)
    (hk : ¬lowerName nm = k) :
    headerLookup (opt_header nm o) k = none := by
  cases o with
  | none => rfl
  | some s =>
      simp only [opt_header]
      by_cases hs : s ≠ ""
      · rw [if_pos hs]
        simp [headerLookup, hk]
      · rw [if_neg hs]
        rfl

theorem headerLookup_compose_tail (req : CompositionRequest) (k : String)
    (hcc : ¬lowerName "cc" = k) (hbcc : ¬lowerName "bcc" = k) :
    headerLookup (opt_header "cc" req.cc ++ opt_header "bcc" req.bcc) k = none := by
  rw [headerLookup_append_right_none _ _ _ (headerLookup_opt_header_ne _ _ _ hbcc)]
  exact headerLookup_opt_header_ne _ _ _ hcc

theorem extract_body_loop_no_text :
    ∀ (l : List Part) (b : List Nat),
      (∀ p ∈ l, ¬p.mimeType = "text/plain" ∧ ¬p.mimeType = "text/html") →
      extract_body_loop l b = b
  | [], _, _ => rfl
  | p :: rest, b, h => by
      have hp := h p (by simp)
      have hrest : ∀ q ∈ rest, ¬q.mimeType = "text/plain" ∧ ¬q.mimeType = "text/html" := by
        intro q hq
        exact h q (by simp [hq])
      simp only [extract_body_loop]
      rw [if_neg hp.1, if_neg (by simp [hp.2])]
      exact extract_body_loop_no_text rest b hrest

theorem filter_of_map {α β : Type} (f : α → β) (p : β → Bool) :
    ∀ l : List α, (l.map f).filter p = (l.filter (fun a => p (f a))).map f
  | [] => rfl
  | a :: l => by
      simp only [List.map_cons, List.filter_cons]
      cases h : p (f a) with
      | true => simp [h, filter_of_map f p l]
      | false => simp [h, filter_of_map f p l]

theorem extract_body_compose (fs : FileSys) (req : CompositionRequest)
    (hbytes : ∀ x ∈ req.body, x < 256) :
    extract_body (compose_message fs req) = req.body := by
  have hatt : ∀ p ∈ (req.attachments.filter (fun q => fs.pathExists q)).map
      (attachment_part fs), ¬p.mimeType = "text/plain" ∧ ¬p.mimeType = "text/html" := by
    intro p hp
    obtain ⟨path, _, rfl⟩ := List.mem_map.mp hp
    exact ⟨by simp [attachment_part], by simp [attachment_part]⟩
  simp only [compose_message, extract_body, extract_body_loop]
  by_cases hb : req.body = []
  · have hdata : partData (text_part req.body) = [] := by
      simp [partData, text_part, hb, urlsafe_b64encode]
    rw [if_pos (show (text_part req.body).mimeType = "text/plain" from rfl),
      if_neg (by simp [hdata])]
    rw [extract_body_loop_no_text _ _ hatt, hb]
  · have hdata : partData (text_part req.body) ≠ [] := by
      simp only [partData, text_part, Option.getD_some]
      intro hc
      exact hb (urlsafe_b64encode_eq_nil _ hc)
    rw [if_pos (show (text_part req.body).mimeType = "text/plain" from rfl), if_pos hdata]
    show urlsafe_b64decode (partData (text_part req.body)) = req.body
    simp only [partData, text_part, Option.getD_some]
    exact urlsafe_b64decode_encode _ hbytes

/-- Claim C6: decoding the composed envelope recovers the request's
recipient, subject and body exactly, and the decoded attachment list is
built from exactly the attachment paths that exist on disk — non-existing
paths are dropped by the composition and contribute no entry. -/
theorem claim_C6 (fs : FileSys) (req : CompositionRequest)
    (mid tid : String) (labels : List String)
    (hbytes : ∀ x ∈ req.body, x < 256) :
    (get_message_content ⟨mid, tid, compose_message fs req, labels⟩).toAddr =
      req.toAddr ∧
    (get_message_content ⟨mid, tid, compose_message fs req, labels⟩).subject =
      req.subject ∧
    (get_message_content ⟨mid, tid, compose_message fs req, labels⟩).body =
      req.body ∧
    (get_message_content ⟨mid, tid, compose_message fs req, labels⟩).attachments.map
        (fun a => a.filename) =
      ((req.attachments.filter (fun p => fs.pathExists p)).map basename).filter
        (fun s => s ≠ "") := by
  refine ⟨?_, ?_, ?_, ?_⟩
  · simp only [get_message_content, compose_message, List.append_assoc]
    rw [headerLookup_append_right_none _ _ _
        (headerLookup_compose_tail req "to" (by decide) (by decide))]
    simp [headerLookup, show lowerName "subject" = "subject" from by decide,
      show lowerName "to" = "to" from by decide]
  · simp only [get_message_content, compose_message, List.append_assoc]
    rw [headerLookup_append_right_none _ _ _
        (headerLookup_compose_tail req "subject" (by decide) (by decide))]
    simp [headerLookup, show lowerName "subject" = "subject" from by decide]
  · exact extract_body_compose fs req hbytes
  · simp only [get_message_content, compose_message, extract_attachments]
    rw [List.filter_cons_of_neg (by simp [text_part])]
    rw [filter_of_map (attachment_part fs) (fun p => p.filename ≠ "")]
    rw [filter_of_map basename (fun s => s ≠ "")]
    simp only [List.map_map]
    rfl

/-- Witness filesystem for claim C6: one existing attachment file. -/
def fsC6 : FileSys := ⟨[("docs/a.txt", [1, 2, 3])]⟩

/-- Witness request for claim C6: one existing and one missing attachment. -/
def reqC6 : CompositionRequest :=
  ⟨"alice@example.com", "Hello", [72, 105, 33], none, none,
    ["docs/a.txt", "missing.bin"]⟩

/-- Claim C6 witness: the roundtrip theorem applied to a concrete request
with one existing and one missing attachment path. -/
theorem claim_C6_witness :
    (∀ x ∈ reqC6.body, x < 256) ∧
    ((get_message_content ⟨"m1", "t1", compose_message fsC6 reqC6, []⟩).toAddr =
        reqC6.toAddr ∧
      (get_message_content ⟨"m1", "t1", compose_message fsC6 reqC6, []⟩).subject =
        reqC6.subject ∧
      (get_message_content ⟨"m1", "t1", compose_message fsC6 reqC6, []⟩).body =
        reqC6.body ∧
      (get_message_content ⟨"m1", "t1", compose_message fsC6 reqC6, []⟩).attachments.map
          (fun a => a.filename) =
        ((reqC6.attachments.filter (fun p => fsC6.pathExists p)).map basename).filter
          (fun s => s ≠ "")) :=
  ⟨by decide, claim_C6 fsC6 reqC6 "m1" "t1" [] (by decide)⟩

/-- A parsed OAuth credential, as google-auth exposes it: an access token,
an optional expiry timestamp and an optional refresh token. -/
structure Cred where
  token : String
  expiry : Option Nat
  refresh_token : Option String
deriving DecidableEq

/-- google-auth `Credentials.expired`: an expiry is set and has passed. -/
def Cred.expired (c : Cred) (now : Nat) : Bool :=
  match c.expiry with
  | some t => t ≤ now
  | none => false

/-- google-auth `Credentials.valid`: an access token is present (non-empty
here) and the credential is not expired. -/
def Cred.valid (c : Cred) (now : Nat) : Bool :=
  c.token != "" && !(c.expired now)

/-- Python truthiness of `creds.refresh_token`: present and non-empty. -/
def Cred.hasRefreshToken (c : Cred) : Bool :=
  match c.refresh_token with
  | some s => s != ""
  | none => false

/-- Environment of `GmailAuthenticator.authenticate`: the current time, the
raw token-file contents (`none` when the file does not exist), the outcome
of the third-party credential parser (`none` when `from_authorized_user_file`
raises), the outcomes of the remote refresh call and of the interactive
flow, whether the client-secrets file exists, and whether building the
service object succeeds. -/
structure AuthEnv where
  now : Nat
  token_file : Option String
  parse : String → Option Cred
  refresh : Cred → Except String Cred
  credentials_file_exists : Bool
  flow : Except String Cred
  build_ok : Bool

/-- What a run of `authenticate` did: its outcome (`Except.error e` models
an uncaught exception propagating out of the call), whether the refresh
call and the interactive flow ran, and what, if anything, was written to
the token file. -/
structure AuthResult where
  outcome : Except String Bool
  refresh_called : Bool
  interactive_called : Bool
  saved : Option Cred

/-- Lines 50-52 of `auth.py`: load the token file if it exists and parse it
with `Credentials.from_authorized_user_file`; a parse failure raises. -/
def load_token (token_file : Option String) (parse : String → Option Cred) :
    Except String (Option Cred) :=
  match token_file with
  | none => .ok none
  | some raw =>
      match parse raw with
      | some c => .ok (some c)
      | none => .error "from_authorized_user_file"

/-- The interactive branch of `authenticate`: a missing client-secrets file
prints guidance and returns `False`; otherwise `InstalledAppFlow.run_local_server`
produces a credential that is saved, and the service is built. -/
def interactive_flow (env : AuthEnv) : AuthResult :=
  if env.credentials_file_exists then
    match env.flow with
    | .ok c => ⟨.ok env.build_ok, false, true, some c⟩
    | .error e => ⟨.error e, false, true, none⟩
  else ⟨.ok false, false, false, none⟩

/-- `GmailAuthenticator.authenticate`: load and parse the token file; a
valid credential short-circuits to building the service; an expired
credential with a refresh token is refreshed (an exception from the refresh
call propagates) and saved; otherwise the interactive flow runs. -/
def authenticate (env : AuthEnv) : AuthResult :=
  match load_token env.token_file env.parse with
  | .error e => ⟨.error e, false, false, none⟩
  | .ok none => interactive_flow env
  | .ok (some c) =>
      if c.valid env.now then ⟨.ok env.build_ok, false, false, none⟩
      else if c.expired env.now && c.hasRefreshToken then
        match env.refresh c with
        | .ok c2 => ⟨.ok env.build_ok, true, false, some c2⟩
        | .error e => ⟨.error e, true, false, none⟩
      else interactive_flow env

/-- Environment of `GmailAuthenticator.revoke_credentials`: the raw
token-file contents, the credential parser, and the outcome of the remote
`creds.revoke(Request())` call. -/
structure RevokeEnv where
  token_file : Option String
  parse : String → Option Cred
  revoke : Cred → Except String Unit

/-- `GmailAuthenticator.revoke_credentials`: parse the token file and call
the remote revocation; only when both succeed is the token file removed and
`True` returned — any exception is caught and leaves the file in place. -/
def revoke_credentials (env : RevokeEnv) : Option String × Bool :=
  match env.token_file with
  | some raw =>
      match env.parse raw with
      | none => (env.token_file, false)
      | some c =>
          match env.revoke c with
          | .ok _ => (none, true)
          | .error _ => (env.token_file, false)
  | none => (env.token_file, false)

/-- `CredentialStore.load` applied after an operation: parse whatever token
file is left on disk, absent when there is no file or it does not parse. -/
def load_after (token_file : Option String) (parse : String → Option Cred) :
    Option Cred :=
  token_file.bind parse

/-- Counterexample credential for claim C1. -/
def credC1 : Cred := ⟨"at", some 100, some "rt"⟩

/-- Counterexample environment for claim C1: a parseable token file and a
remote revocation call that raises. -/
def revokeEnvC1 : RevokeEnv :=
  ⟨some "tok", fun s => if s = "tok" then some credC1 else none,
    fun _ => .error "network"⟩

/-- Claim C1, counterexample: when the server-side revocation call fails,
`revoke_credentials` returns `False` without deleting the token file, so a
subsequent `load` still returns the credential rather than absent. -/
theorem claim_C1_counterexample :
    revoke_credentials revokeEnvC1 = (some "tok", false) ∧
    load_after (revoke_credentials revokeEnvC1).1 revokeEnvC1.parse = some credC1 ∧
    load_after (revoke_credentials revokeEnvC1).1 revokeEnvC1.parse ≠ none := by
  refine ⟨by decide, by decide, by decide⟩

/-- Claim C1 (amended): when the server-side revocation call fails,
`revoke_credentials` catches the exception, leaves the token file in place
and returns `False`; the store is emptied only when the parse and the
remote revocation both succeed. -/
theorem claim_C1_amended (env : RevokeEnv) (raw : String) (c : Cred) (e : String)
    (h1 : env.token_file = some raw) (h2 : env.parse raw = some c)
    (h3 : env.revoke c = .error e) :
    revoke_credentials env = (some raw, false) ∧
    load_after (revoke_credentials env).1 env.parse = some c := by
  simp [revoke_credentials, h1, h2, h3, load_after]

/-- Claim C1 witness: the amended theorem applied to the concrete failing
environment. -/
theorem claim_C1_witness :
    (revokeEnvC1.token_file = some "tok" ∧ revokeEnvC1.parse "tok" = some credC1 ∧
      revokeEnvC1.revoke credC1 = .error "network") ∧
    (revoke_credentials revokeEnvC1 = (some "tok", false) ∧
      load_after (revoke_credentials revokeEnvC1).1 revokeEnvC1.parse = some credC1) :=
  ⟨⟨rfl, by decide, rfl⟩,
    claim_C1_amended revokeEnvC1 "tok" credC1 "network" rfl (by decide) rfl⟩

/-- Counterexample credential for claim C3: expired at time 10, with a
refresh token. -/
def credC3 : Cred := ⟨"at", some 5, some "rt"⟩

/-- Counterexample environment for claim C3: the stored credential is
expired and refreshable, and the remote refresh call raises. -/
def authEnvC3 : AuthEnv :=
  ⟨10, some "tok", fun s => if s = "tok" then some credC3 else none,
    fun _ => .error "invalid_grant", true, .ok ⟨"new", some 99, some "rt"⟩, true⟩

/-- Claim C3, counterexample: when the refresh call for an expired,
refreshable credential fails, `authenticate` propagates the exception and
the interactive flow never runs — it does not fall through to it. -/
theorem claim_C3_counterexample :
    (authenticate authEnvC3).interactive_called = false ∧
    (authenticate authEnvC3).outcome = .error "invalid_grant" ∧
    (authenticate authEnvC3).refresh_called = true :=
  ⟨rfl, rfl, rfl⟩

/-- Claim C3 (amended): for every stored credential that is not valid but
expired with a refresh token, a failing refresh call makes `authenticate`
raise that failure; the interactive flow is not reached and nothing is
saved. -/
theorem claim_C3_amended (env : AuthEnv) (raw : String) (c : Cred) (e : String)
    (h1 : env.token_file = some raw) (h2 : env.parse raw = some c)
    (h3 : c.valid env.now = false) (h4 : c.expired env.now = true)
    (h5 : c.hasRefreshToken = true) (h6 : env.refresh c = .error e) :
    authenticate env = ⟨.error e, true, false, none⟩ := by
  simp [authenticate, load_token, h1, h2, h3, h4, h5, h6]

/-- Claim C3 witness: the amended theorem applied to the concrete failing
environment. -/
theorem claim_C3_witness :
    (authEnvC3.token_file = some "tok" ∧ authEnvC3.parse "tok" = some credC3 ∧
      credC3.valid authEnvC3.now = false ∧ credC3.expired authEnvC3.now = true ∧
      credC3.hasRefreshToken = true ∧
      authEnvC3.refresh credC3 = .error "invalid_grant") ∧
    authenticate authEnvC3 = ⟨.error "invalid_grant", true, false, none⟩ :=
  ⟨⟨rfl, by decide, by decide, by decide, by decide, rfl⟩,
    claim_C3_amended authEnvC3 "tok" credC3 "invalid_grant" rfl (by decide)
      (by decide) (by decide) (by decide) rfl⟩

/-- Counterexample environment for claim C4: the token file exists but its
contents do not parse as a credential. -/
def authEnvC4 : AuthEnv :=
  ⟨0, some "garbage", fun _ => none, fun c => .ok c, true, .ok ⟨"t", none, none⟩, true⟩

/-- Claim C4, counterexample: a token file that is present but unparseable
makes the load raise (`from_authorized_user_file` is not wrapped), instead
of silently returning absent — and the exception propagates out of
`authenticate`. -/
theorem claim_C4_counterexample :
    load_token (some "garbage") (fun _ => none) = .error "from_authorized_user_file" ∧
    (Except.error "from_authorized_user_file" : Except String (Option Cred)) ≠
      .ok none ∧
    (authenticate authEnvC4).outcome = .error "from_authorized_user_file" := by
  refine ⟨rfl, ?_, rfl⟩
  intro h
  exact Except.noConfusion h

/-- Claim C4 (amended): loading returns absent without raising only when
the token file does not exist; a file that is present but unparseable
raises the parser's exception instead of returning absent. -/
theorem claim_C4_amended (parse : String → Option Cred) (raw : String)
    (hraw : parse raw = none) :
    load_token none parse = .ok none ∧
    load_token (some raw) parse = .error "from_authorized_user_file" := by
  constructor
  · rfl
  · simp [load_token, hraw]

/-- Claim C4 witness: the amended theorem applied to a parser that rejects
the concrete contents. -/
theorem claim_C4_witness :
    ((fun _ : String => (none : Option Cred)) "garbage" = none) ∧
    (load_token none (fun _ : String => (none : Option Cred)) = .ok none ∧
      load_token (some "garbage") (fun _ : String => (none : Option Cred)) =
        .error "from_authorized_user_file") :=
  ⟨rfl, claim_C4_amended (fun _ => none) "garbage" rfl⟩

/-- Claim C5: a stored credential with a non-empty access token and a
future expiry short-circuits `authenticate`: no refresh call, no
interactive flow, no rewrite of the stored credential, and the call
succeeds. -/
theorem claim_C5 (env : AuthEnv) (raw : String) (c : Cred) (t : Nat)
    (h1 : env.token_file = some raw) (h2 : env.parse raw = some c)
    (h3 : c.token ≠ "") (h4 : c.expiry = some t) (h5 : env.now < t)
    (h6 : env.build_ok = true) :
    authenticate env = ⟨.ok true, false, false, none⟩ := by
  have hne : (c.token != "") = true := by simp [h3]
  have hexp : c.expired env.now = false := by
    simp only [Cred.expired, h4, decide_eq_false_iff_not]
    omega
  have hvalid : c.valid env.now = true := by
    simp [Cred.valid, hne, hexp]
  simp [authenticate, load_token, h1, h2, hvalid, h6]

/-- Witness credential for claim C5: valid at time 10 until time 100. -/
def credC5 : Cred := ⟨"at", some 100, none⟩

/-- Witness environment for claim C5. -/
def authEnvC5 : AuthEnv :=
  ⟨10, some "tok", fun s => if s = "tok" then some credC5 else none,
    fun c => .ok c, true, .ok credC5, true⟩

/-- Claim C5 witness: the short-circuit theorem applied to the concrete
valid credential. -/
theorem claim_C5_witness :
    (authEnvC5.token_file = some "tok" ∧ authEnvC5.parse "tok" = some credC5 ∧
      credC5.token ≠ "" ∧ credC5.expiry = some 100 ∧ authEnvC5.now < 100 ∧
      authEnvC5.build_ok = true) ∧
    authenticate authEnvC5 = ⟨.ok true, false, false, none⟩ :=
  ⟨⟨rfl, by decide, by decide, rfl, by decide, rfl⟩,
    claim_C5 authEnvC5 "tok" credC5 100 rfl (by decide) (by decide) rfl
      (by decide) rfl⟩

end GmailCli
